import Mathlib

/-!
Shallow embedding of the AWS EC2 & S3 exploratory dashboard
(`streamlit_app.py`): data model, cleaning, filter engine, aggregation
engine (group-by mean/sum, top-k), KPI formatting and insight derivation,
together with theorems settling the specification claims.

Numeric columns are modelled as rationals (`ℚ`); nullable columns as
`Option` types.  Tables are lists of row records, in file order.
-/

universe u

/-- A raw compute-table row as loaded from `aws_resources_compute.csv`:
`CostUSD` and `CPUUtilization` may be null before cleaning. -/
structure RawEc2Row where
  resourceId : String
  region : Option String
  costUSD : Option ℚ
  cpuUtilization : Option ℚ
deriving DecidableEq, Repr

/-- A raw storage-table row as loaded from `aws_resources_S3.csv`:
`CostUSD` may be null before cleaning. -/
structure RawS3Row where
  bucketName : String
  region : Option String
  totalSizeGB : ℚ
  costUSD : Option ℚ
deriving DecidableEq, Repr

/-- A cleaned compute row: after `ec2_df.dropna(subset=["CostUSD", "CPUUtilization"])`
both numeric fields are non-null.  `Region` is not touched by cleaning and
stays nullable. -/
structure Ec2Row where
  resourceId : String
  region : Option String
  costUSD : ℚ
  cpuUtilization : ℚ
deriving DecidableEq, Repr

/-- A cleaned storage row: after `s3_df.fillna({"CostUSD": 0})` the cost is
non-null.  `Region` stays nullable. -/
structure S3Row where
  bucketName : String
  region : Option String
  totalSizeGB : ℚ
  costUSD : ℚ
deriving DecidableEq, Repr

/-- `ec2_df.dropna(subset=["CostUSD", "CPUUtilization"])` (line 27): rows with a
null cost or utilization are discarded. -/
def cleanEc2 (raw : List RawEc2Row) : List Ec2Row :=
  raw.filterMap fun r =>
    match r.costUSD, r.cpuUtilization with
    | some c, some u => some ⟨r.resourceId, r.region, c, u⟩
    | _, _ => none

/-- `s3_df.fillna({"CostUSD": 0})` (line 28): a null cost is coerced to zero. -/
def cleanS3 (raw : List RawS3Row) : List S3Row :=
  raw.map fun r => ⟨r.bucketName, r.region, r.totalSizeGB, r.costUSD.getD 0⟩

/-- The transient filter configuration assembled from the sidebar widgets
(lines 36-69): accepted compute regions, accepted storage regions, inclusive
cost range and inclusive CPU-utilization range. -/
structure FilterCriteria where
  ec2Regions : List String
  s3Regions : List String
  costRange : ℚ × ℚ
  cpuRange : ℚ × ℚ
deriving DecidableEq, Repr

/-- `series.isin(selected)` membership test on the nullable `Region` column:
a null region is never a member (the selected values are plain strings, coming
from the multiselect options which are the distinct non-null regions). -/
def regionIsIn : Option String → List String → Bool
  | none, _ => false
  | some s, sel => sel.contains s

/-- `series.between(lo, hi)` with the default inclusive bounds. -/
def between (x lo hi : ℚ) : Bool :=
  decide (lo ≤ x) && decide (x ≤ hi)

/-- The compute filter (lines 77-81): region membership AND cost in range AND
utilization in range. -/
def ec2_filtered (df : List Ec2Row) (c : FilterCriteria) : List Ec2Row :=
  df.filter fun r =>
    regionIsIn r.region c.ec2Regions
      && between r.costUSD c.costRange.1 c.costRange.2
      && between r.cpuUtilization c.cpuRange.1 c.cpuRange.2

/-- The storage filter (line 83): region membership only. -/
def s3_filtered (df : List S3Row) (c : FilterCriteria) : List S3Row :=
  df.filter fun r => regionIsIn r.region c.s3Regions

/-- Arithmetic mean of a list of rationals (`Series.mean`); callers only use
it on non-empty lists, per the documented precondition. -/
def meanQ (l : List ℚ) : ℚ :=
  l.sum / l.length

/-- The ordering used by `.sort_values(ascending=False)` on a grouped series:
pair `a` comes before pair `b` when `a`'s value is at least `b`'s. -/
def valueDesc (a b : String × ℚ) : Prop :=
  b.2 ≤ a.2

instance : DecidableRel valueDesc :=
  fun a b => inferInstanceAs (Decidable (b.2 ≤ a.2))

instance : IsTotal (String × ℚ) valueDesc :=
  ⟨fun a b => le_total b.2 a.2⟩

instance : IsTrans (String × ℚ) valueDesc :=
  ⟨fun _ _ _ h1 h2 => le_trans h2 h1⟩

/-- Code-point lexicographic comparison of character lists, the order Python
uses to compare strings. -/
def charListLe : List Char → List Char → Bool
  | [], _ => true
  | _ :: _, [] => false
  | a :: as, b :: bs =>
    if a.toNat < b.toNat then true
    else if b.toNat < a.toNat then false
    else charListLe as bs

/-- Python string comparison (`sorted` on region names): code-point
lexicographic order. -/
def strLe (a b : String) : Bool :=
  charListLe a.data b.data

/-- The distinct non-null values of a `Region` column in ascending order.
This is both `sorted(df["Region"].dropna().unique())` (lines 36 and 44, the
multiselect options) and the group keys produced by `groupby("Region")`,
which groups by exact equality, drops null keys, and sorts the keys. -/
def groupKeys (regions : List (Option String)) : List String :=
  List.insertionSort (fun a b : String => strLe a b = true) (regions.reduceOption.dedup)

/-- The multiselect options `ec2_regions` (line 36). -/
def ec2_regions (df : List Ec2Row) : List String :=
  groupKeys (df.map (·.region))

/-- The multiselect options `s3_regions` (line 44). -/
def s3_regions (df : List S3Row) : List String :=
  groupKeys (df.map (·.region))

/-- `ec2_filtered.groupby("Region")["CostUSD"].mean().sort_values(ascending=False)`
(lines 126-131 and 308-313): mean cost per region, sorted by value descending. -/
def avg_cost_region (view : List Ec2Row) : List (String × ℚ) :=
  List.insertionSort valueDesc
    ((groupKeys (view.map (·.region))).map fun k =>
      (k, meanQ ((view.filter fun r => decide (r.region = some k)).map (·.costUSD))))

/-- `s3_filtered.groupby("Region")["TotalSizeGB"].sum().sort_values(ascending=False)`
(lines 147-152 and 322-327): total size per region, sorted by value descending. -/
def storage_by_region (view : List S3Row) : List (String × ℚ) :=
  List.insertionSort valueDesc
    ((groupKeys (view.map (·.region))).map fun k =>
      (k, ((view.filter fun r => decide (r.region = some k)).map (·.totalSizeGB)).sum))

/-- The total order used by `nlargest(k, col)` with the default `keep="first"`:
strictly larger key first, ties broken by smaller original row index. -/
def rankLt {α : Type u} (key : α → ℚ) (a b : Nat × α) : Prop :=
  key b.2 < key a.2 ∨ (key a.2 = key b.2 ∧ a.1 ≤ b.1)

instance {α : Type u} (key : α → ℚ) : DecidableRel (rankLt key) :=
  fun a b =>
    inferInstanceAs (Decidable (key b.2 < key a.2 ∨ (key a.2 = key b.2 ∧ a.1 ≤ b.1)))

instance {α : Type u} (key : α → ℚ) : IsTotal (Nat × α) (rankLt key) := by
  constructor
  intro a b
  rcases lt_trichotomy (key a.2) (key b.2) with h | h | h
  · exact Or.inr (Or.inl h)
  · rcases Nat.le_total a.1 b.1 with hle | hle
    · exact Or.inl (Or.inr ⟨h, hle⟩)
    · exact Or.inr (Or.inr ⟨h.symm, hle⟩)
  · exact Or.inl (Or.inl h)

instance {α : Type u} (key : α → ℚ) : IsTrans (Nat × α) (rankLt key) := by
  constructor
  intro a b c hab hbc
  rcases hab with hab | ⟨hab, hab2⟩ <;> rcases hbc with hbc | ⟨hbc, hbc2⟩
  · exact Or.inl (lt_trans hbc hab)
  · exact Or.inl (hbc ▸ hab)
  · exact Or.inl (by rw [hab]; exact hbc)
  · exact Or.inr ⟨hab.trans hbc, le_trans hab2 hbc2⟩

/-- Rows paired with their original positions, starting at index `i`:
the row order that `keep="first"` tie-breaking refers to. -/
def enumIdx {α : Type u} : Nat → List α → List (Nat × α)
  | _, [] => []
  | i, a :: l => (i, a) :: enumIdx (i + 1) l

/-- `view.nlargest(k, col)` (lines 254-256 and 278-280): the `k` rows with the
largest key, in descending key order, ties kept in original row order
(`keep="first"`), clipped to the view size. -/
def nlargestBy {α : Type u} (key : α → ℚ) (k : Nat) (l : List α) : List α :=
  ((List.insertionSort (rankLt key) (enumIdx 0 l)).take k).map Prod.snd

/-- `ec2_filtered.nlargest(5, "CostUSD")` (lines 254-256).  The subsequent
ascending re-sort for the bar chart (line 257) is a presentation concern,
outside the engine contract (spec 4.3). -/
def top_ec2 (view : List Ec2Row) : List Ec2Row :=
  nlargestBy (·.costUSD) 5 view

/-- `s3_filtered.nlargest(5, "TotalSizeGB")` (lines 278-280), presentation
re-sort likewise excluded. -/
def top_s3 (view : List S3Row) : List S3Row :=
  nlargestBy (·.totalSizeGB) 5 view

/-- Rounding to the nearest integer, halves to even: the rounding used by
Python's fixed-point string formatting. -/
def roundHalfEven (q : ℚ) : ℤ :=
  let f := ⌊q⌋
  if q - f < 1 / 2 then f
  else if (1 : ℚ) / 2 < q - f then f + 1
  else if f % 2 = 0 then f else f + 1

/-- Zero-padding of a two-digit fractional part. -/
def pad2 (n : Nat) : String :=
  if n < 10 then "0" ++ toString n else toString n

/-- Python `f"{x:.2f}"`: fixed-point with exactly two decimal places. -/
def fmt2 (q : ℚ) : String :=
  let n := roundHalfEven (q * 100)
  let sign := if n < 0 then "-" else ""
  let m := n.natAbs
  sign ++ toString (m / 100) ++ "." ++ pad2 (m % 100)

/-- Chunks of three, used to group digits from the least significant end. -/
def chunk3 : List Char → List (List Char)
  | [] => []
  | a :: b :: c :: rest => [a, b, c] :: chunk3 rest
  | l => [l]

/-- Insert a comma between every group of three digits, counting from the
right. -/
def groupDigits (s : String) : String :=
  String.mk (((chunk3 s.data.reverse).intersperse [',']).flatten.reverse)

/-- Python `f"{x:,.0f}"`: rounded to zero decimal places with thousands
separators. -/
def fmtThousands0 (q : ℚ) : String :=
  let n := roundHalfEven q
  (if n < 0 then "-" else "") ++ groupDigits (toString n.natAbs)

/-- The "Avg EC2 Cost (USD/hr)" KPI (lines 91-94): the mean filtered cost to
two decimal places, or the literal string "0.00" for an empty view — the
emptiness test guards the aggregate. -/
def avg_ec2_cost_kpi (view : List Ec2Row) : String :=
  if view.isEmpty then "0.00" else fmt2 (meanQ (view.map (·.costUSD)))

/-- The "Total S3 Storage (GB)" KPI (lines 96-99): the summed filtered size
with thousands separators, or the literal string "0" for an empty view. -/
def total_s3_storage_kpi (view : List S3Row) : String :=
  if view.isEmpty then "0" else fmtThousands0 ((view.map (·.totalSizeGB)).sum)

/-- One row of the optimization strategy matrix (lines 337-369). -/
structure OptimizationStrategyRow where
  area : String
  patternObserved : String
  optimizationAction : String
  expectedImpact : String
deriving DecidableEq, Repr

/-- Default row used only to state list lookups. -/
def emptyStrategyRow : OptimizationStrategyRow :=
  ⟨"", "", "", ""⟩

/-- The EC2 "Pattern Observed" entry (lines 307-318 and 337-345):
`ec2_expensive_region` is `None` for an empty view, otherwise `idxmax` of the
descending-sorted mean-cost series, i.e. its head.  The f-string is guarded by
Python truthiness of the region string, so both `None` and the empty string
fall back to the placeholder. -/
def ec2Pattern (view : List Ec2Row) : String :=
  match (if view.isEmpty then none else (avg_cost_region view).head?) with
  | some (r, v) =>
    if r = "" then "No EC2 data for current filters"
    else "Highest avg hourly cost in region " ++ r ++ " (~" ++ fmt2 v ++ " USD/hr)"
  | none => "No EC2 data for current filters"

/-- The S3 "Pattern Observed" entry (lines 321-332 and 354-362), with the same
truthiness guard on the region string. -/
def s3Pattern (view : List S3Row) : String :=
  match (if view.isEmpty then none else (storage_by_region view).head?) with
  | some (r, v) =>
    if r = "" then "No S3 data for current filters"
    else "Largest total storage in region " ++ r ++ " (~" ++ fmtThousands0 v ++ " GB)"
  | none => "No S3 data for current filters"

/-- The four-row strategy matrix `strategies` (lines 335-369): rows 0 and 2
are templated from the live aggregate extremes, rows 1 and 3 are static. -/
def deriveInsights (ec2View : List Ec2Row) (s3View : List S3Row) :
    List OptimizationStrategyRow :=
  [⟨"EC2", ec2Pattern ec2View,
    "Rightsize instances or move flexible workloads to cheaper regions.",
    "Lower compute spend while keeping performance acceptable."⟩,
   ⟨"EC2", "Under-utilized instances with low CPU but non-trivial cost.",
    "Downsize instance types or schedule shutdown outside business hours.",
    "Avoid paying for idle capacity."⟩,
   ⟨"S3", s3Pattern s3View,
    "Use lifecycle rules to move cold data to STANDARD_IA/GLACIER and expire old objects.",
    "Reduce monthly storage cost, especially for archival data."⟩,
   ⟨"S3", "Potential growth from versioning and duplicate copies.",
    "Review versioning; clean up non-current versions and unnecessary replicas.",
    "Control long-term storage growth and cost."⟩]

/-- `float(series.min())` (lines 52, 62): the least element of a non-empty
column.  The source crashes on an empty table (NaN propagated into the slider);
the `[]` branch here is that unreachable case. -/
def listMinQ : List ℚ → ℚ
  | [] => 0
  | x :: xs => xs.foldl min x

/-- `float(series.max())` (lines 53, 63), same remark about the empty case. -/
def listMaxQ : List ℚ → ℚ
  | [] => 0
  | x :: xs => xs.foldl max x

/-- The criteria produced by the sidebar defaults: every region option
selected (lines 37-49) and both sliders spanning the observed data
(lines 52-69). -/
def default_criteria (edf : List Ec2Row) (sdf : List S3Row) : FilterCriteria :=
  ⟨ec2_regions edf, s3_regions sdf,
   (listMinQ (edf.map (·.costUSD)), listMaxQ (edf.map (·.costUSD))),
   (listMinQ (edf.map (·.cpuUtilization)), listMaxQ (edf.map (·.cpuUtilization)))⟩

/-- Everything the dashboard derives in one render cycle from the two raw
tables and the filter criteria: filtered views, the four KPIs, both grouped
aggregates, both top-5 tables and the strategy matrix. -/
def dashboard_outputs (rawE : List RawEc2Row) (rawS : List RawS3Row) (c : FilterCriteria) :
    List Ec2Row × List S3Row × Nat × String × Nat × String
      × List (String × ℚ) × List (String × ℚ)
      × List Ec2Row × List S3Row × List OptimizationStrategyRow :=
  let ev := ec2_filtered (cleanEc2 rawE) c
  let sv := s3_filtered (cleanS3 rawS) c
  (ev, sv, ev.length, avg_ec2_cost_kpi ev, sv.length, total_s3_storage_kpi sv,
   avg_cost_region ev, storage_by_region sv, top_ec2 ev, top_s3 sv,
   deriveInsights ev sv)

/-- The compute-derived outputs: filtered view, row-count KPI, cost KPI,
mean-cost-per-region aggregate, top-5 table and the EC2 strategy pattern. -/
def ec2_outputs (edf : List Ec2Row) (c : FilterCriteria) :
    List Ec2Row × Nat × String × List (String × ℚ) × List Ec2Row × String :=
  (ec2_filtered edf c, (ec2_filtered edf c).length,
   avg_ec2_cost_kpi (ec2_filtered edf c), avg_cost_region (ec2_filtered edf c),
   top_ec2 (ec2_filtered edf c), ec2Pattern (ec2_filtered edf c))

/-- The storage-derived outputs, symmetrically. -/
def s3_outputs (sdf : List S3Row) (c : FilterCriteria) :
    List S3Row × Nat × String × List (String × ℚ) × List S3Row × String :=
  (s3_filtered sdf c, (s3_filtered sdf c).length,
   total_s3_storage_kpi (s3_filtered sdf c), storage_by_region (s3_filtered sdf c),
   top_s3 (s3_filtered sdf c), s3Pattern (s3_filtered sdf c))

/-- A sample compute table used to exercise the theorems on concrete data. -/
def sampleEc2Rows : List Ec2Row :=
  [⟨"i-01", some "us-east-1", 3, 40⟩, ⟨"i-02", some "eu-west-1", 7, 80⟩]

/-- A sample storage table whose heaviest region totals 12345 GB. -/
def sampleS3Rows : List S3Row :=
  [⟨"b1", some "eu-west-1", 12000, 0⟩, ⟨"b2", some "eu-west-1", 345, 0⟩,
   ⟨"b3", some "ap-south-1", 100, 0⟩]

/-- Criteria selecting no compute region but both storage regions. -/
def sampleCriteria : FilterCriteria :=
  ⟨[], ["eu-west-1", "ap-south-1"], (0, 100), (0, 100)⟩

/-! ### Helper lemmas -/

theorem foldl_min_le_init (xs : List ℚ) (a : ℚ) : xs.foldl min a ≤ a := by
  induction xs generalizing a with
  | nil => exact le_refl a
  | cons x xs ih => exact le_trans (ih (min a x)) (min_le_left a x)

theorem foldl_min_le_mem : ∀ (xs : List ℚ) (a x : ℚ), x ∈ xs → xs.foldl min a ≤ x
  | [], _, _, hx => absurd hx (List.not_mem_nil _)
  | y :: ys, a, x, hx => by
    rcases List.mem_cons.mp hx with rfl | h
    · exact le_trans (foldl_min_le_init ys (min a x)) (min_le_right a x)
    · exact foldl_min_le_mem ys (min a y) x h

theorem init_le_foldl_max (xs : List ℚ) (a : ℚ) : a ≤ xs.foldl max a := by
  induction xs generalizing a with
  | nil => exact le_refl a
  | cons x xs ih => exact le_trans (le_max_left a x) (ih (max a x))

theorem mem_le_foldl_max : ∀ (xs : List ℚ) (a x : ℚ), x ∈ xs → x ≤ xs.foldl max a
  | [], _, _, hx => absurd hx (List.not_mem_nil _)
  | y :: ys, a, x, hx => by
    rcases List.mem_cons.mp hx with rfl | h
    · exact le_trans (le_max_right a x) (init_le_foldl_max ys (max a x))
    · exact mem_le_foldl_max ys (max a y) x h

theorem listMinQ_le {l : List ℚ} {x : ℚ} (hx : x ∈ l) : listMinQ l ≤ x := by
  cases l with
  | nil => exact absurd hx (List.not_mem_nil _)
  | cons y ys =>
    rcases List.mem_cons.mp hx with rfl | h
    · exact foldl_min_le_init ys x
    · exact foldl_min_le_mem ys y x h

theorem le_listMaxQ {l : List ℚ} {x : ℚ} (hx : x ∈ l) : x ≤ listMaxQ l := by
  cases l with
  | nil => exact absurd hx (List.not_mem_nil _)
  | cons y ys =>
    rcases List.mem_cons.mp hx with rfl | h
    · exact init_le_foldl_max ys x
    · exact mem_le_foldl_max ys y x h

theorem mem_groupKeys {regions : List (Option String)} {s : String} :
    s ∈ groupKeys regions ↔ some s ∈ regions := by
  unfold groupKeys
  rw [List.mem_insertionSort, List.mem_dedup, List.reduceOption_mem_iff]

theorem ec2_filtered_region_ne_none {df : List Ec2Row} {c : FilterCriteria} {r : Ec2Row}
    (hr : r ∈ ec2_filtered df c) : r.region ≠ none := by
  intro hnone
  have := (List.mem_filter.mp hr).2
  simp [regionIsIn, hnone] at this

theorem s3_filtered_region_ne_none {df : List S3Row} {c : FilterCriteria} {b : S3Row}
    (hb : b ∈ s3_filtered df c) : b.region ≠ none := by
  intro hnone
  have := (List.mem_filter.mp hb).2
  simp [regionIsIn, hnone] at this

theorem avg_cost_region_sorted (view : List Ec2Row) :
    List.Sorted valueDesc (avg_cost_region view) :=
  List.sorted_insertionSort valueDesc _

theorem storage_by_region_sorted (view : List S3Row) :
    List.Sorted valueDesc (storage_by_region view) :=
  List.sorted_insertionSort valueDesc _

theorem sorted_head_max {l : List (String × ℚ)} {r : String} {v : ℚ}
    (hs : List.Sorted valueDesc l) (hh : l.head? = some (r, v)) :
    ∀ p ∈ l, p.2 ≤ v := by
  cases l with
  | nil => cases hh
  | cons a t =>
    have ha : a = (r, v) := by simpa using hh
    subst ha
    intro p hp
    rcases List.mem_cons.mp hp with rfl | hp
    · exact le_refl _
    · exact (List.sorted_cons.mp hs).1 p hp

theorem avg_cost_region_ne_nil {view : List Ec2Row} (hv : view ≠ [])
    (hreg : ∀ r ∈ view, r.region ≠ none) : avg_cost_region view ≠ [] := by
  obtain ⟨r, hr⟩ := List.exists_mem_of_ne_nil view hv
  cases hrs : r.region with
  | none => exact absurd hrs (hreg r hr)
  | some s =>
    intro hnil
    have hmem : (s, meanQ ((view.filter fun q => decide (q.region = some s)).map (·.costUSD)))
        ∈ avg_cost_region view := by
      unfold avg_cost_region
      exact (List.mem_insertionSort _).mpr
        (List.mem_map.mpr ⟨s, mem_groupKeys.mpr (List.mem_map.mpr ⟨r, hr, hrs⟩), rfl⟩)
    rw [hnil] at hmem
    exact absurd hmem (List.not_mem_nil _)

theorem storage_by_region_ne_nil {view : List S3Row} (hv : view ≠ [])
    (hreg : ∀ b ∈ view, b.region ≠ none) : storage_by_region view ≠ [] := by
  obtain ⟨b, hb⟩ := List.exists_mem_of_ne_nil view hv
  cases hbs : b.region with
  | none => exact absurd hbs (hreg b hb)
  | some s =>
    intro hnil
    have hmem : (s, ((view.filter fun q => decide (q.region = some s)).map (·.totalSizeGB)).sum)
        ∈ storage_by_region view := by
      unfold storage_by_region
      exact (List.mem_insertionSort _).mpr
        (List.mem_map.mpr ⟨s, mem_groupKeys.mpr (List.mem_map.mpr ⟨b, hb, hbs⟩), rfl⟩)
    rw [hnil] at hmem
    exact absurd hmem (List.not_mem_nil _)

theorem head?_some_of_ne_nil {α : Type u} {l : List α} (h : l ≠ []) :
    ∃ x, l.head? = some x := by
  cases l with
  | nil => exact absurd rfl h
  | cons a t => exact ⟨a, rfl⟩

theorem length_enumIdx {α : Type u} : ∀ (i : Nat) (l : List α),
    (enumIdx i l).length = l.length
  | _, [] => rfl
  | i, a :: l => by simp [enumIdx, length_enumIdx (i + 1) l]

theorem mem_enumIdx {α : Type u} {l : List α} {p : Nat × α} :
    ∀ {i : Nat}, p ∈ enumIdx i l → p.2 ∈ l := by
  induction l with
  | nil => intro i hp; cases hp
  | cons a t ih =>
    intro i hp
    rcases List.mem_cons.mp hp with rfl | hp
    · exact List.mem_cons_self _ _
    · exact List.mem_cons_of_mem _ (ih hp)

theorem sorted_take_drop {β : Type u} {r : β → β → Prop} {l : List β} (k : Nat)
    (h : List.Sorted r l) : ∀ q ∈ l.take k, ∀ p ∈ l.drop k, r q p := by
  have h2 : List.Pairwise r (l.take k ++ l.drop k) := by
    rw [List.take_append_drop]; exact h
  exact (List.pairwise_append.mp h2).2.2

/-! ### Claim theorems -/

/-- C1: membership in the compute filtered view is equivalent to membership in
the table together with all three predicates; membership in the storage
filtered view is equivalent to membership plus region membership only; both
filtered views are sublists (hence sub-multisets) of their tables. -/
theorem filter_characterization :
    ∀ (e : List Ec2Row) (s : List S3Row) (c : FilterCriteria) (r : Ec2Row) (b : S3Row),
      (r ∈ ec2_filtered e c ↔
        r ∈ e ∧ regionIsIn r.region c.ec2Regions = true
          ∧ (c.costRange.1 ≤ r.costUSD ∧ r.costUSD ≤ c.costRange.2)
          ∧ (c.cpuRange.1 ≤ r.cpuUtilization ∧ r.cpuUtilization ≤ c.cpuRange.2))
      ∧ (b ∈ s3_filtered s c ↔ b ∈ s ∧ regionIsIn b.region c.s3Regions = true)
      ∧ List.Sublist (ec2_filtered e c) e
      ∧ List.Sublist (s3_filtered s c) s := by
  intro e s c r b
  refine ⟨?_, ?_, List.filter_sublist e, List.filter_sublist s⟩
  · simp [ec2_filtered, List.mem_filter, between, and_assoc]
  · simp [s3_filtered, List.mem_filter]

/-- C7: degenerate criteria give a valid empty view: an empty accepted-region
set empties both views, and a cost range with `min > max` empties the compute
view. -/
theorem degenerate_filters_empty :
    (∀ (e : List Ec2Row) (c : FilterCriteria), c.ec2Regions = [] → ec2_filtered e c = [])
    ∧ (∀ (s : List S3Row) (c : FilterCriteria), c.s3Regions = [] → s3_filtered s c = [])
    ∧ (∀ (e : List Ec2Row) (c : FilterCriteria),
        c.costRange.2 < c.costRange.1 → ec2_filtered e c = []) := by
  refine ⟨?_, ?_, ?_⟩
  · intro e c h
    apply List.filter_eq_nil_iff.mpr
    intro r _
    cases hr : r.region with
    | none => simp [regionIsIn, hr]
    | some v => simp [regionIsIn, hr, h]
  · intro s c h
    apply List.filter_eq_nil_iff.mpr
    intro r _
    cases hr : r.region with
    | none => simp [regionIsIn, hr]
    | some v => simp [regionIsIn, hr, h]
  · intro e c h
    apply List.filter_eq_nil_iff.mpr
    intro r _
    intro hpred
    simp only [Bool.and_eq_true, between, decide_eq_true_eq] at hpred
    exact absurd (le_trans hpred.1.2.1 hpred.1.2.2) (not_le.mpr h)

/-- Witness for C7 at concrete inputs. -/
theorem degenerate_filters_empty_witness :
    ec2_filtered [⟨"i", some "r", 1, 1⟩] ⟨[], ["r"], (0, 2), (0, 2)⟩ = []
    ∧ s3_filtered [⟨"b", some "r", 1, 0⟩] ⟨["r"], [], (0, 2), (0, 2)⟩ = []
    ∧ ec2_filtered [⟨"i", some "r", 1, 1⟩] ⟨["r"], [], (3, 1), (0, 2)⟩ = [] :=
  ⟨degenerate_filters_empty.1 _ _ rfl, degenerate_filters_empty.2.1 _ _ rfl,
   degenerate_filters_empty.2.2 _ _ (by norm_num)⟩

/-- C9: no filtered view ever contains a row with a null `Region`: the `isin`
membership test is against a list of plain strings (the multiselect options,
which are the distinct non-null regions), so a null region never matches. -/
theorem null_region_excluded :
    (∀ (e : List Ec2Row) (c : FilterCriteria) (r : Ec2Row),
      r ∈ ec2_filtered e c → r.region ≠ none)
    ∧ (∀ (s : List S3Row) (c : FilterCriteria) (b : S3Row),
      b ∈ s3_filtered s c → b.region ≠ none) :=
  ⟨fun _ _ _ hr => ec2_filtered_region_ne_none hr,
   fun _ _ _ hb => s3_filtered_region_ne_none hb⟩

/-- Witness for C9 at a concrete input: the filtered view of a one-row table
contains that row, whose region is non-null. -/
theorem null_region_excluded_witness :
    (⟨"i-1", some "us-east-1", 3, 40⟩ : Ec2Row).region ≠ none :=
  null_region_excluded.1 [⟨"i-1", some "us-east-1", 3, 40⟩]
    ⟨["us-east-1"], [], (0, 10), (0, 100)⟩ _ (by decide)

/-- C3: the grouped statistics are sorted by value descending; the keys are
exactly the distinct regions of the view; each pair's value is the statistic
(mean cost, resp. total size) of the rows whose region equals the pair's key;
and on the view with groups at A having costs 10 and 20 and at B having cost 5,
the mean yields A at 15 and B at 5, in that descending order. -/
theorem groupStat_spec :
    (∀ view : List Ec2Row,
      List.Sorted valueDesc (avg_cost_region view)
      ∧ List.Perm ((avg_cost_region view).map Prod.fst) (groupKeys (view.map (·.region)))
      ∧ ∀ p ∈ avg_cost_region view,
          p.2 = meanQ ((view.filter fun r => decide (r.region = some p.1)).map (·.costUSD)))
    ∧ (∀ view : List S3Row,
      List.Sorted valueDesc (storage_by_region view)
      ∧ List.Perm ((storage_by_region view).map Prod.fst) (groupKeys (view.map (·.region)))
      ∧ ∀ p ∈ storage_by_region view,
          p.2 = ((view.filter fun r => decide (r.region = some p.1)).map (·.totalSizeGB)).sum)
    ∧ avg_cost_region
        [⟨"i1", some "A", 10, 0⟩, ⟨"i2", some "A", 20, 0⟩, ⟨"i3", some "B", 5, 0⟩]
      = [("A", 15), ("B", 5)] := by
  refine ⟨fun view => ⟨avg_cost_region_sorted view, ?_, ?_⟩,
    fun view => ⟨storage_by_region_sorted view, ?_, ?_⟩, ?_⟩
  · refine ((List.perm_insertionSort valueDesc _).map Prod.fst).trans ?_
    rw [List.map_map]
    exact (List.map_id _).symm ▸ List.Perm.refl _
  · intro p hp
    unfold avg_cost_region at hp
    rw [List.mem_insertionSort] at hp
    obtain ⟨k, _, rfl⟩ := List.mem_map.mp hp
    rfl
  · refine ((List.perm_insertionSort valueDesc _).map Prod.fst).trans ?_
    rw [List.map_map]
    exact (List.map_id _).symm ▸ List.Perm.refl _
  · intro p hp
    unfold storage_by_region at hp
    rw [List.mem_insertionSort] at hp
    obtain ⟨k, _, rfl⟩ := List.mem_map.mp hp
    rfl
  · have hAA : decide ("A" = "A") = true := rfl
    have hAB : decide ("A" = "B") = false := rfl
    have hBA : decide ("B" = "A") = false := rfl
    have hBB : decide ("B" = "B") = true := rfl
    norm_num [avg_cost_region, groupKeys, meanQ, List.insertionSort,
      List.orderedInsert, valueDesc, strLe, charListLe, List.dedup,
      List.pwFilter, List.reduceOption, List.filter, hAA, hAB, hBA, hBB]

/-- Witness for C3 at a concrete input: the A-pair of the computed aggregate
carries the mean of group A's costs. -/
theorem groupStat_spec_witness :
    ("A", (15 : ℚ)).2
      = meanQ ((([⟨"i1", some "A", 10, 0⟩, ⟨"i2", some "A", 20, 0⟩,
          ⟨"i3", some "B", 5, 0⟩] : List Ec2Row).filter
            fun r => decide (r.region = some ("A", (15 : ℚ)).1)).map (·.costUSD)) :=
  (groupStat_spec.1 _).2.2 ("A", 15)
    (by rw [groupStat_spec.2.2]; exact List.mem_cons_self _ _)

/-- C4: `nlargestBy` returns `min k n` rows, all drawn from the view, and
every selected indexed row ranks at least as high as every rejected one in
the order "larger cost first, ties by earlier original position" — i.e. the
k largest values with stable tie-breaking and k clipped to the view size. -/
theorem topK_properties :
    ∀ (view : List Ec2Row) (k : Nat),
      (nlargestBy (fun r => r.costUSD) k view).length = min k view.length
      ∧ (∀ r ∈ nlargestBy (fun r => r.costUSD) k view, r ∈ view)
      ∧ (∀ p ∈ enumIdx 0 view,
          p ∉ (List.insertionSort (rankLt fun r : Ec2Row => r.costUSD) (enumIdx 0 view)).take k →
          ∀ q ∈ (List.insertionSort (rankLt fun r : Ec2Row => r.costUSD) (enumIdx 0 view)).take k,
            p.2.costUSD < q.2.costUSD ∨ (q.2.costUSD = p.2.costUSD ∧ q.1 ≤ p.1)) := by
  intro view k
  refine ⟨?_, ?_, ?_⟩
  · unfold nlargestBy
    rw [List.length_map, List.length_take, List.length_insertionSort, length_enumIdx]
  · intro r hr
    unfold nlargestBy at hr
    obtain ⟨p, hp, rfl⟩ := List.mem_map.mp hr
    have hp2 : p ∈ List.insertionSort (rankLt fun r : Ec2Row => r.costUSD) (enumIdx 0 view) :=
      List.mem_of_mem_take hp
    rw [List.mem_insertionSort] at hp2
    exact mem_enumIdx hp2
  · intro p hpmem hpnot q hq
    have hsorted : List.Sorted (rankLt fun r : Ec2Row => r.costUSD)
        (List.insertionSort (rankLt fun r : Ec2Row => r.costUSD) (enumIdx 0 view)) :=
      List.sorted_insertionSort _ _
    have hpin : p ∈ List.insertionSort (rankLt fun r : Ec2Row => r.costUSD) (enumIdx 0 view) := by
      rw [List.mem_insertionSort]
      exact hpmem
    have hsplit : p ∈ (List.insertionSort (rankLt fun r : Ec2Row => r.costUSD)
          (enumIdx 0 view)).take k
        ++ (List.insertionSort (rankLt fun r : Ec2Row => r.costUSD) (enumIdx 0 view)).drop k := by
      rw [List.take_append_drop]
      exact hpin
    have hdrop : p ∈ (List.insertionSort (rankLt fun r : Ec2Row => r.costUSD)
        (enumIdx 0 view)).drop k := by
      rcases List.mem_append.mp hsplit with h | h
      · exact absurd h hpnot
      · exact h
    exact sorted_take_drop k hsorted q hq p hdrop

/-- Witness for C4 at a concrete 7-row view with a tie at cost 50: the
selected row with cost 50 is drawn from the view, and the rejected indexed
row (index 0, cost 10) ranks below the selected one (index 1, cost 50). -/
theorem topK_properties_witness :
    (⟨"b", some "r", 50, 0⟩ : Ec2Row) ∈ ([⟨"a", some "r", 10, 0⟩, ⟨"b", some "r", 50, 0⟩,
        ⟨"c", some "r", 30, 0⟩, ⟨"d", some "r", 50, 0⟩, ⟨"e", some "r", 20, 0⟩,
        ⟨"f", some "r", 40, 0⟩, ⟨"g", some "r", 5, 0⟩] : List Ec2Row)
    ∧ ((10 : ℚ) < 50 ∨ ((50 : ℚ) = 10 ∧ 1 ≤ 0))
    ∧ nlargestBy (fun r => r.costUSD) 5
        ([⟨"a", some "r", 10, 0⟩, ⟨"b", some "r", 50, 0⟩, ⟨"c", some "r", 30, 0⟩,
          ⟨"d", some "r", 50, 0⟩, ⟨"e", some "r", 20, 0⟩, ⟨"f", some "r", 40, 0⟩,
          ⟨"g", some "r", 5, 0⟩] : List Ec2Row)
      = [⟨"b", some "r", 50, 0⟩, ⟨"d", some "r", 50, 0⟩, ⟨"f", some "r", 40, 0⟩,
         ⟨"c", some "r", 30, 0⟩, ⟨"e", some "r", 20, 0⟩] := by
  refine ⟨?_, ?_, by decide⟩
  · exact (topK_properties [⟨"a", some "r", 10, 0⟩, ⟨"b", some "r", 50, 0⟩,
      ⟨"c", some "r", 30, 0⟩, ⟨"d", some "r", 50, 0⟩, ⟨"e", some "r", 20, 0⟩,
      ⟨"f", some "r", 40, 0⟩, ⟨"g", some "r", 5, 0⟩] 5).2.1 _ (by decide)
  · exact (topK_properties [⟨"a", some "r", 10, 0⟩, ⟨"b", some "r", 50, 0⟩,
      ⟨"c", some "r", 30, 0⟩, ⟨"d", some "r", 50, 0⟩, ⟨"e", some "r", 20, 0⟩,
      ⟨"f", some "r", 40, 0⟩, ⟨"g", some "r", 5, 0⟩] 5).2.2
      (0, ⟨"a", some "r", 10, 0⟩) (by decide) (by decide)
      (1, ⟨"b", some "r", 50, 0⟩) (by decide)

theorem roundHalfEven_intCast (n : ℤ) : roundHalfEven (n : ℚ) = n := by
  norm_num [roundHalfEven, Int.floor_intCast]

theorem fmt2_ten : fmt2 10 = "10.00" := by
  have h : roundHalfEven ((10 : ℚ) * 100) = 1000 := by
    have h10 : ((10 : ℚ) * 100) = ((1000 : ℤ) : ℚ) := by norm_num
    rw [h10, roundHalfEven_intCast]
  simp only [fmt2, h]
  decide

theorem fmtThousands0_12345 : fmtThousands0 12345 = "12,345" := by
  have h : roundHalfEven (12345 : ℚ) = 12345 := by
    have h1 : ((12345 : ℚ)) = ((12345 : ℤ) : ℚ) := by norm_num
    rw [h1, roundHalfEven_intCast]
  simp only [fmtThousands0, h]
  decide

theorem storage_sample_eval :
    storage_by_region (s3_filtered sampleS3Rows sampleCriteria)
      = [("eu-west-1", 12345), ("ap-south-1", 100)] := by
  have h1 : s3_filtered sampleS3Rows sampleCriteria = sampleS3Rows := by decide
  rw [h1]
  have hEE : decide ("eu-west-1" = "eu-west-1") = true := rfl
  have hEA : decide ("eu-west-1" = "ap-south-1") = false := rfl
  have hAE : decide ("ap-south-1" = "eu-west-1") = false := rfl
  have hAA : decide ("ap-south-1" = "ap-south-1") = true := rfl
  have s1 : strLe "eu-west-1" "ap-south-1" = false := by decide
  have s2 : strLe "ap-south-1" "eu-west-1" = true := by decide
  norm_num [storage_by_region, sampleS3Rows, groupKeys, List.insertionSort,
    List.orderedInsert, valueDesc, List.dedup, List.pwFilter,
    List.reduceOption, List.filter, hEE, hEA, hAE, hAA, s1, s2]

/-- C2 (amended): `deriveInsights` always returns exactly four rows, two per
area; rows 1 and 3 are fixed filter-independent text; row 0's pattern is the
fixed EC2 placeholder when the compute view is empty, and when the view is
non-empty and the head of the descending mean-cost aggregate is a non-empty
region string, it names that region — which attains the aggregate's maximum —
with its value to two decimal places; symmetrically for row 2 with total size
and thousands-separated integer formatting; for a non-empty filtered view the
aggregate's head always exists.  (The truthiness guard in the source also
maps an empty-string region to the placeholder; see the counterexample.) -/
theorem deriveInsights_spec :
    ∀ (edf : List Ec2Row) (sdf : List S3Row) (c : FilterCriteria),
      (deriveInsights (ec2_filtered edf c) (s3_filtered sdf c)).length = 4
      ∧ (deriveInsights (ec2_filtered edf c) (s3_filtered sdf c)).map (fun row => row.area)
          = ["EC2", "EC2", "S3", "S3"]
      ∧ (ec2_filtered edf c = [] →
          ((deriveInsights (ec2_filtered edf c) (s3_filtered sdf c)).getD 0
            emptyStrategyRow).patternObserved = "No EC2 data for current filters")
      ∧ (∀ (r : String) (v : ℚ), ec2_filtered edf c ≠ [] →
          (avg_cost_region (ec2_filtered edf c)).head? = some (r, v) → r ≠ "" →
          ((deriveInsights (ec2_filtered edf c) (s3_filtered sdf c)).getD 0
              emptyStrategyRow).patternObserved
            = "Highest avg hourly cost in region " ++ r ++ " (~" ++ fmt2 v ++ " USD/hr)"
          ∧ ∀ p ∈ avg_cost_region (ec2_filtered edf c), p.2 ≤ v)
      ∧ (ec2_filtered edf c ≠ [] →
          ∃ rv, (avg_cost_region (ec2_filtered edf c)).head? = some rv)
      ∧ (s3_filtered sdf c = [] →
          ((deriveInsights (ec2_filtered edf c) (s3_filtered sdf c)).getD 2
            emptyStrategyRow).patternObserved = "No S3 data for current filters")
      ∧ (∀ (r : String) (v : ℚ), s3_filtered sdf c ≠ [] →
          (storage_by_region (s3_filtered sdf c)).head? = some (r, v) → r ≠ "" →
          ((deriveInsights (ec2_filtered edf c) (s3_filtered sdf c)).getD 2
              emptyStrategyRow).patternObserved
            = "Largest total storage in region " ++ r ++ " (~" ++ fmtThousands0 v ++ " GB)"
          ∧ ∀ p ∈ storage_by_region (s3_filtered sdf c), p.2 ≤ v)
      ∧ (s3_filtered sdf c ≠ [] →
          ∃ rv, (storage_by_region (s3_filtered sdf c)).head? = some rv)
      ∧ (deriveInsights (ec2_filtered edf c) (s3_filtered sdf c)).getD 1 emptyStrategyRow
          = ⟨"EC2", "Under-utilized instances with low CPU but non-trivial cost.",
             "Downsize instance types or schedule shutdown outside business hours.",
             "Avoid paying for idle capacity."⟩
      ∧ (deriveInsights (ec2_filtered edf c) (s3_filtered sdf c)).getD 3 emptyStrategyRow
          = ⟨"S3", "Potential growth from versioning and duplicate copies.",
             "Review versioning; clean up non-current versions and unnecessary replicas.",
             "Control long-term storage growth and cost."⟩ := by
  intro edf sdf c
  refine ⟨rfl, rfl, ?_, ?_, ?_, ?_, ?_, ?_, rfl, rfl⟩
  · intro h
    show ec2Pattern (ec2_filtered edf c) = _
    rw [h]
    rfl
  · intro r v hne hh hr
    have hemp : (ec2_filtered edf c).isEmpty = false := by
      cases hev : ec2_filtered edf c with
      | nil => exact absurd hev hne
      | cons a t => rfl
    constructor
    · show ec2Pattern (ec2_filtered edf c) = _
      unfold ec2Pattern
      rw [hh]
      simp [hemp, hr]
    · exact sorted_head_max (avg_cost_region_sorted _) hh
  · intro hne
    exact head?_some_of_ne_nil
      (avg_cost_region_ne_nil hne fun r hr => ec2_filtered_region_ne_none hr)
  · intro h
    show s3Pattern (s3_filtered sdf c) = _
    rw [h]
    rfl
  · intro r v hne hh hr
    have hemp : (s3_filtered sdf c).isEmpty = false := by
      cases hev : s3_filtered sdf c with
      | nil => exact absurd hev hne
      | cons a t => rfl
    constructor
    · show s3Pattern (s3_filtered sdf c) = _
      unfold s3Pattern
      rw [hh]
      simp [hemp, hr]
    · exact sorted_head_max (storage_by_region_sorted _) hh
  · intro hne
    exact head?_some_of_ne_nil
      (storage_by_region_ne_nil hne fun b hb => s3_filtered_region_ne_none hb)

/-- Counterexample to C2 as stated: a non-empty compute view whose
maximum-mean region is the empty string still renders the placeholder, because
the source guards the f-string with Python truthiness of the region string
(`if ec2_expensive_region`), not with the view-emptiness test. -/
theorem deriveInsights_truthiness_cex :
    ec2_filtered [⟨"i-1", some "", 10, 50⟩] ⟨[""], [], (0, 100), (0, 100)⟩ ≠ []
    ∧ ((deriveInsights (ec2_filtered [⟨"i-1", some "", 10, 50⟩] ⟨[""], [], (0, 100), (0, 100)⟩)
          (s3_filtered [] ⟨[""], [], (0, 100), (0, 100)⟩)).getD 0
            emptyStrategyRow).patternObserved
        = "No EC2 data for current filters"
    ∧ "No EC2 data for current filters"
        ≠ "Highest avg hourly cost in region " ++ "" ++ " (~" ++ fmt2 10 ++ " USD/hr)" := by
  refine ⟨by decide, ?_, ?_⟩
  · have hf : ec2_filtered [⟨"i-1", some "", 10, 50⟩] ⟨[""], [], (0, 100), (0, 100)⟩
        = [⟨"i-1", some "", 10, 50⟩] := by decide
    show ec2Pattern (ec2_filtered [⟨"i-1", some "", 10, 50⟩] ⟨[""], [], (0, 100), (0, 100)⟩) = _
    rw [hf]
    have he : decide (("" : String) = "") = true := rfl
    simp [ec2Pattern, avg_cost_region, groupKeys, List.reduceOption, List.dedup,
      List.pwFilter, List.insertionSort, List.orderedInsert, List.filter, he]
  · rw [fmt2_ten]
    decide

/-- Witness for C2 at concrete inputs: an empty compute view together with a
non-empty storage view yields the fixed EC2 placeholder and an S3 pattern
naming the max-storage region with thousands-separated size. -/
theorem deriveInsights_spec_witness :
    ((deriveInsights (ec2_filtered sampleEc2Rows sampleCriteria)
        (s3_filtered sampleS3Rows sampleCriteria)).getD 0 emptyStrategyRow).patternObserved
      = "No EC2 data for current filters"
    ∧ ((deriveInsights (ec2_filtered sampleEc2Rows sampleCriteria)
        (s3_filtered sampleS3Rows sampleCriteria)).getD 2 emptyStrategyRow).patternObserved
      = "Largest total storage in region eu-west-1 (~12,345 GB)" := by
  have h := deriveInsights_spec sampleEc2Rows sampleS3Rows sampleCriteria
  refine ⟨h.2.2.1 (by decide), ?_⟩
  have h2 := (h.2.2.2.2.2.2.1 "eu-west-1" 12345 (by decide)
    (by rw [storage_sample_eval]; rfl) (by decide)).1
  rw [h2, fmtThousands0_12345]
  rfl

/-- C5: the "Avg EC2 Cost" KPI is the literal string "0.00" on an empty
filtered compute view and the "Total S3 Storage" KPI is "0" on an empty
filtered storage view; on non-empty views the aggregate branch is taken —
the emptiness test is the guard, the aggregate is only ever applied to a
non-empty view. -/
theorem kpi_empty_views :
    avg_ec2_cost_kpi [] = "0.00"
    ∧ total_s3_storage_kpi [] = "0"
    ∧ (∀ (edf : List Ec2Row) (c : FilterCriteria),
        ec2_filtered edf c = [] → avg_ec2_cost_kpi (ec2_filtered edf c) = "0.00")
    ∧ (∀ (sdf : List S3Row) (c : FilterCriteria),
        s3_filtered sdf c = [] → total_s3_storage_kpi (s3_filtered sdf c) = "0")
    ∧ (∀ view : List Ec2Row, view ≠ [] →
        avg_ec2_cost_kpi view = fmt2 (meanQ (view.map fun r => r.costUSD)))
    ∧ (∀ view : List S3Row, view ≠ [] →
        total_s3_storage_kpi view = fmtThousands0 ((view.map fun r => r.totalSizeGB).sum)) := by
  refine ⟨rfl, rfl, ?_, ?_, ?_, ?_⟩
  · intro edf c h
    rw [h]
    rfl
  · intro sdf c h
    rw [h]
    rfl
  · intro view h
    have hemp : view.isEmpty = false := by
      cases hv : view with
      | nil => exact absurd hv h
      | cons a t => rfl
    simp [avg_ec2_cost_kpi, hemp]
  · intro view h
    have hemp : view.isEmpty = false := by
      cases hv : view with
      | nil => exact absurd hv h
      | cons a t => rfl
    simp [total_s3_storage_kpi, hemp]

/-- Witness for C5 at concrete inputs: a criteria with no accepted compute
region empties the view and the KPI renders "0.00"; a non-empty view takes
the aggregate branch. -/
theorem kpi_empty_views_witness :
    avg_ec2_cost_kpi (ec2_filtered [⟨"i", some "r", 1, 1⟩] ⟨[], [], (0, 2), (0, 2)⟩) = "0.00"
    ∧ total_s3_storage_kpi (s3_filtered [⟨"b", some "r", 1, 0⟩] ⟨[], [], (0, 2), (0, 2)⟩) = "0"
    ∧ avg_ec2_cost_kpi [⟨"i", some "r", 4, 1⟩]
        = fmt2 (meanQ (([⟨"i", some "r", 4, 1⟩] : List Ec2Row).map fun r => r.costUSD))
    ∧ total_s3_storage_kpi [⟨"b", some "r", 7, 0⟩]
        = fmtThousands0 ((([⟨"b", some "r", 7, 0⟩] : List S3Row).map fun r => r.totalSizeGB).sum) :=
  ⟨kpi_empty_views.2.2.1 _ _ (by decide), kpi_empty_views.2.2.2.1 _ _ (by decide),
   kpi_empty_views.2.2.2.2.1 _ (by decide), kpi_empty_views.2.2.2.2.2 _ (by decide)⟩

/-- C6 (amended): filtering with the full default criteria returns exactly the
rows of the cleaned table whose `Region` is non-null — hence the cleaned table
itself whenever every row has a non-null region.  (A null-`Region` row
survives compute cleaning but is dropped by every region filter; see the
counterexample.) -/
theorem default_filter_identity :
    ∀ (edf : List Ec2Row) (sdf : List S3Row),
      ec2_filtered edf (default_criteria edf sdf) = edf.filter (fun r => r.region.isSome)
      ∧ s3_filtered sdf (default_criteria edf sdf) = sdf.filter (fun b => b.region.isSome)
      ∧ ((∀ r ∈ edf, r.region.isSome) → ec2_filtered edf (default_criteria edf sdf) = edf)
      ∧ ((∀ b ∈ sdf, b.region.isSome) → s3_filtered sdf (default_criteria edf sdf) = sdf) := by
  intro edf sdf
  have e1 : ec2_filtered edf (default_criteria edf sdf)
      = edf.filter (fun r => r.region.isSome) := by
    unfold ec2_filtered
    apply List.filter_congr
    intro r hr
    cases hreg : r.region with
    | none => simp [regionIsIn, hreg]
    | some s =>
      have hks : s ∈ groupKeys (edf.map (·.region)) :=
        mem_groupKeys.mpr (List.mem_map.mpr ⟨r, hr, hreg⟩)
      have h1 : listMinQ (edf.map (·.costUSD)) ≤ r.costUSD :=
        listMinQ_le (List.mem_map.mpr ⟨r, hr, rfl⟩)
      have h2 : r.costUSD ≤ listMaxQ (edf.map (·.costUSD)) :=
        le_listMaxQ (List.mem_map.mpr ⟨r, hr, rfl⟩)
      have h3 : listMinQ (edf.map (·.cpuUtilization)) ≤ r.cpuUtilization :=
        listMinQ_le (List.mem_map.mpr ⟨r, hr, rfl⟩)
      have h4 : r.cpuUtilization ≤ listMaxQ (edf.map (·.cpuUtilization)) :=
        le_listMaxQ (List.mem_map.mpr ⟨r, hr, rfl⟩)
      simp [default_criteria, ec2_regions, regionIsIn, hreg, between,
        h1, h2, h3, h4, hks]
  have e2 : s3_filtered sdf (default_criteria edf sdf)
      = sdf.filter (fun b => b.region.isSome) := by
    unfold s3_filtered
    apply List.filter_congr
    intro b hb
    cases hreg : b.region with
    | none => simp [regionIsIn, hreg]
    | some s =>
      have hks : s ∈ groupKeys (sdf.map (·.region)) :=
        mem_groupKeys.mpr (List.mem_map.mpr ⟨b, hb, hreg⟩)
      simp [default_criteria, s3_regions, regionIsIn, hreg, hks]
  refine ⟨e1, e2, ?_, ?_⟩
  · intro h
    rw [e1]
    exact List.filter_eq_self.mpr h
  · intro h
    rw [e2]
    exact List.filter_eq_self.mpr h

/-- Counterexample to C6 as stated: a cleaned compute table holding one row
with a null `Region` is not returned unchanged by the default filter — the
default region options contain only non-null regions, so the row is dropped
and the filtered view is empty rather than the table itself. -/
theorem default_filter_identity_cex :
    ec2_filtered [⟨"i-1", none, 1, 1⟩] (default_criteria [⟨"i-1", none, 1, 1⟩] [])
      ≠ [⟨"i-1", none, 1, 1⟩] := by
  decide

/-- Witness for C6 at a concrete input: on a table whose rows all carry
non-null regions, the default filter is the identity. -/
theorem default_filter_identity_witness :
    ec2_filtered [⟨"i-1", some "r", 1, 2⟩] (default_criteria [⟨"i-1", some "r", 1, 2⟩] [])
      = [⟨"i-1", some "r", 1, 2⟩]
    ∧ s3_filtered [⟨"b-1", some "q", 3, 0⟩]
        (default_criteria [] [⟨"b-1", some "q", 3, 0⟩]) = [⟨"b-1", some "q", 3, 0⟩] :=
  ⟨(default_filter_identity _ _).2.2.1 (by decide),
   (default_filter_identity _ _).2.2.2 (by decide)⟩

/-- C8: the whole derived pipeline is a pure function of the two loaded
tables and the criteria: equal inputs give equal filtered views, KPIs,
aggregates, top-5 tables and strategy rows — there is no hidden
nondeterminism or random tie-break anywhere in the embedding. -/
theorem pipeline_deterministic :
    ∀ (r1 r2 : List RawEc2Row) (s1 s2 : List RawS3Row) (c1 c2 : FilterCriteria),
      r1 = r2 → s1 = s2 → c1 = c2 →
      dashboard_outputs r1 s1 c1 = dashboard_outputs r2 s2 c2 := by
  intro r1 r2 s1 s2 c1 c2 h1 h2 h3
  rw [h1, h2, h3]

/-- Witness for C8 at a concrete input. -/
theorem pipeline_deterministic_witness :
    dashboard_outputs [⟨"i", some "r", some 1, some 2⟩] [⟨"b", some "r", 3, none⟩]
        ⟨["r"], ["r"], (0, 5), (0, 5)⟩
      = dashboard_outputs [⟨"i", some "r", some 1, some 2⟩] [⟨"b", some "r", 3, none⟩]
        ⟨["r"], ["r"], (0, 5), (0, 5)⟩ :=
  pipeline_deterministic _ _ _ _ _ _ rfl rfl rfl

/-- C10: noninterference between the two entities: criteria agreeing on the
compute fields give identical compute-derived outputs regardless of the
storage region set, and criteria agreeing on the storage region set give
identical storage-derived outputs regardless of the compute fields. -/
theorem entity_noninterference :
    (∀ (edf : List Ec2Row) (c1 c2 : FilterCriteria),
      c1.ec2Regions = c2.ec2Regions → c1.costRange = c2.costRange →
      c1.cpuRange = c2.cpuRange → ec2_outputs edf c1 = ec2_outputs edf c2)
    ∧ (∀ (sdf : List S3Row) (c1 c2 : FilterCriteria),
      c1.s3Regions = c2.s3Regions → s3_outputs sdf c1 = s3_outputs sdf c2) := by
  constructor
  · intro edf c1 c2 h1 h2 h3
    have hf : ec2_filtered edf c1 = ec2_filtered edf c2 := by
      unfold ec2_filtered
      simp only [h1, h2, h3]
    unfold ec2_outputs
    rw [hf]
  · intro sdf c1 c2 h1
    have hf : s3_filtered sdf c1 = s3_filtered sdf c2 := by
      unfold s3_filtered
      simp only [h1]
    unfold s3_outputs
    rw [hf]

/-- Witness for C10 at concrete inputs: flipping only the storage region set
leaves every compute-derived output unchanged, and conversely. -/
theorem entity_noninterference_witness :
    ec2_outputs [⟨"i", some "r", 1, 2⟩] ⟨["r"], [], (0, 5), (0, 5)⟩
      = ec2_outputs [⟨"i", some "r", 1, 2⟩] ⟨["r"], ["zz"], (0, 5), (0, 5)⟩
    ∧ s3_outputs [⟨"b", some "r", 3, 0⟩] ⟨["r"], ["r"], (0, 5), (0, 5)⟩
      = s3_outputs [⟨"b", some "r", 3, 0⟩] ⟨["q"], ["r"], (9, 5), (1, 2)⟩ :=
  ⟨entity_noninterference.1 _ _ _ rfl rfl rfl, entity_noninterference.2 _ _ _ rfl⟩
